import Mathlib

/-!
# Verification of the arbitrage_bot core state machines

Shallow embedding of the core state and decision logic of the
`arbitrage_bot` repository (Rust), translated definition-by-definition
from the source files:

* `src/types.rs`         — `Side`, `Tif`, `ExecCommand`, `RestingHint`, `CC_PER_CENT`
* `src/state/book.rs`    — `Book` (order-book reconstruction)
* `src/state/position.rs`— `Position` (pair-cost accounting)
* `src/state/orders.rs`  — `Orders` / `OrderRec` (order lifecycle)
* `src/state/ticker.rs`  — `Market`, `Mode`
* `src/engine/decision.rs` — the per-tick decision engine
* `src/exec/paper.rs`    — the paper-trading fill simulator

Modelling conventions:
* Rust `u8` prices and `u64` quantities are `Nat` (with explicit
  saturation where the source uses `saturating_add` on `u64`);
  `i64` values are `Int` (Rust `/` on `i64` truncates toward zero,
  modelled by `Int.div`); `f64` appears in the decision path only in
  the inventory-imbalance comparison and is modelled by `ℚ`.
* `Instant` is milliseconds as `Nat`; `Instant::duration_since`
  saturates at zero, which is `Nat` subtraction.
* `uuid::Uuid` values are `Nat`; fresh uuids are passed as arguments.
* `HashMap` is an association list with unique keys.
-/

namespace ArbBot

/-- `src/types.rs`: contract side. -/
inductive Side : Type where
  | Yes : Side
  | No : Side
deriving DecidableEq, Repr

/-- `src/types.rs`: `Side::other`. -/
def Side.other : Side → Side
  | .Yes => .No
  | .No => .Yes

/-- `src/types.rs`: `CC_PER_CENT`, the fixed-point scale (cent-cents per cent). -/
def CC_PER_CENT : Int := 100

/-- `src/types.rs`: time in force. -/
inductive Tif : Type where
  | Ioc : Tif
  | Gtc : Tif
deriving DecidableEq, Repr

/-- `u64::saturating_add`. -/
def u64SatAdd (a b : Nat) : Nat := min (a + b) (2 ^ 64 - 1)

/-- `u8::saturating_add` (used for tick arithmetic on prices). -/
def u8SatAdd (a b : Nat) : Nat := min (a + b) 255

/-- Read a fixed array cell (`arr[i]`); the source arrays always have
101 cells and are indexed in bounds. -/
def listGet (l : List Int) (i : Nat) : Int := l.getD i 0

/-- Write a fixed array cell (`arr[i] = v`). -/
def listSet : List Int → Nat → Int → List Int
  | [], _, _ => []
  | _ :: xs, 0, v => v :: xs
  | x :: xs, i + 1, v => x :: listSet xs i v

/-- `src/state/book.rs`: per-market resting-bid depth, one cell per price
in cents (0..=100) per side, plus the last-applied sequence number
(`-1` means uninitialized). -/
structure Book : Type where
  yes_bids : List Int
  no_bids : List Int
  last_seq : Int
deriving DecidableEq, Repr

/-- `Book::default()`. -/
def Book.default : Book :=
  { yes_bids := List.replicate 101 0, no_bids := List.replicate 101 0, last_seq := -1 }

/-- `src/state/book.rs`: `Book::reset` (snapshot load). -/
def Book.reset (_b : Book) (seq : Int) (yes no : List (Nat × Int)) : Book :=
  { yes_bids := yes.foldl (fun a pq => listSet a pq.1 (max pq.2 0)) (List.replicate 101 0)
    no_bids := no.foldl (fun a pq => listSet a pq.1 (max pq.2 0)) (List.replicate 101 0)
    last_seq := seq }

/-- `src/state/book.rs`: `Book::apply_delta`. Returns the source's
`bool` together with the updated book (the source mutates in place). -/
def Book.apply_delta (b : Book) (seq : Int) (side : Side) (price : Nat) (delta : Int) :
    Bool × Book :=
  if 0 ≤ b.last_seq ∧ seq ≠ b.last_seq + 1 then
    (false, b)
  else if price > 100 then
    (true, b)
  else
    match side with
    | .Yes =>
        (true, { b with
          yes_bids := listSet b.yes_bids price (max (listGet b.yes_bids price + delta) 0)
          last_seq := seq })
    | .No =>
        (true, { b with
          no_bids := listSet b.no_bids price (max (listGet b.no_bids price + delta) 0)
          last_seq := seq })

/-- Descending scan `for p in (0..=n).rev()` used by `Book::best_bid`. -/
def bestBidFrom (arr : List Int) : Nat → Option Nat
  | 0 => if listGet arr 0 > 0 then some 0 else none
  | n + 1 => if listGet arr (n + 1) > 0 then some (n + 1) else bestBidFrom arr n

/-- `src/state/book.rs`: `Book::best_bid` — highest price (0..=100) with
positive resting quantity. -/
def Book.best_bid (b : Book) (side : Side) : Option Nat :=
  match side with
  | .Yes => bestBidFrom b.yes_bids 100
  | .No => bestBidFrom b.no_bids 100

/-- `src/state/book.rs`: `Book::implied_ask` — `100.saturating_sub(best
bid of the opposite side)`; `Nat` subtraction is saturating subtraction. -/
def Book.implied_ask (b : Book) (side : Side) : Option Nat :=
  match side with
  | .Yes => (b.best_bid .No).map (fun bb => 100 - bb)
  | .No => (b.best_bid .Yes).map (fun bb => 100 - bb)

/-- `src/state/book.rs`: `Book::crosses_ask`. -/
def Book.crosses_ask (b : Book) (side : Side) (price : Nat) : Bool :=
  match b.implied_ask side with
  | some ask => price ≥ ask
  | none => false

/-- `src/state/position.rs`: per-side quantity and cumulative cost in
cent-cents. -/
structure Position : Type where
  yes_qty : Int
  no_qty : Int
  yes_cost_cc : Int
  no_cost_cc : Int
deriving DecidableEq, Repr

/-- `Position::default()`. -/
def Position.default : Position := ⟨0, 0, 0, 0⟩

/-- `src/state/position.rs`: `Position::avg_yes_cc` (Rust `i64` division
truncates toward zero, which is `Int.div`). -/
def Position.avg_yes_cc (p : Position) : Option Int :=
  if p.yes_qty ≤ 0 then none else some (Int.tdiv p.yes_cost_cc p.yes_qty)

/-- `src/state/position.rs`: `Position::avg_no_cc`. -/
def Position.avg_no_cc (p : Position) : Option Int :=
  if p.no_qty ≤ 0 then none else some (Int.tdiv p.no_cost_cc p.no_qty)

/-- `src/state/position.rs`: `Position::pair_cost_cc` —
`Some(avg_yes? + avg_no?)`. -/
def Position.pair_cost_cc (p : Position) : Option Int :=
  match p.avg_yes_cc, p.avg_no_cc with
  | some a, some b => some (a + b)
  | _, _ => none

/-- `src/state/position.rs`: `Position::imbalance_ratio` —
`|yes-no| / max(yes+no, 1)`; the source computes this in `f64`, modelled
here exactly in `ℚ` (the integer-to-float conversions involved are exact
for all magnitudes the program handles). -/
def Position.imbalance_frac (p : Position) : ℚ :=
  ((p.yes_qty - p.no_qty).natAbs : ℚ) / ((max (p.yes_qty + p.no_qty) 1 : Int) : ℚ)

/-- `src/state/position.rs`: `Position::apply_fill` —
`cost += price*CC_PER_CENT*qty; qty += qty`. -/
def Position.apply_fill (p : Position) (side : Side) (price_cents : Nat) (qty : Int) :
    Position :=
  let add_cc := (price_cents : Int) * CC_PER_CENT * qty
  match side with
  | .Yes => { p with yes_qty := p.yes_qty + qty, yes_cost_cc := p.yes_cost_cc + add_cc }
  | .No => { p with no_qty := p.no_qty + qty, no_cost_cc := p.no_cost_cc + add_cc }

/-- `src/state/position.rs`: `Position::simulate_buy` — clones the
receiver and applies `apply_fill` to the clone; in the pure embedding
this is exactly `apply_fill` on a copy, the receiver is untouched by
construction. -/
def Position.simulate_buy (p : Position) (side : Side) (price_cents : Nat) (qty : Int) :
    Position :=
  Position.apply_fill p side price_cents qty

/-- `src/state/orders.rs`: order status. -/
inductive OrderStatus : Type where
  | PendingAck : OrderStatus
  | Resting : OrderStatus
  | Filled : OrderStatus
  | Canceled : OrderStatus
  | Rejected : OrderStatus
deriving DecidableEq, Repr

/-- `src/state/orders.rs`: one record per locally-submitted order. -/
structure OrderRec : Type where
  ticker : String
  side : Side
  price_cents : Nat
  qty : Nat
  tif : Tif
  post_only : Bool
  order_id : Option String
  client_order_id : Nat
  status : OrderStatus
  created_at : Nat
  filled_qty : Nat
deriving DecidableEq, Repr

/-- `HashMap` lookup on the association-list model (keys are unique). -/
def lookupClient (l : List (Nat × OrderRec)) (k : Nat) : Option OrderRec :=
  (l.find? (fun e => e.1 == k)).map (fun e => e.2)

/-- `HashMap::get_mut` followed by a field update: rewrite the entry at
key `k` in place. -/
def updateClient (l : List (Nat × OrderRec)) (k : Nat) (f : OrderRec → OrderRec) :
    List (Nat × OrderRec) :=
  l.map (fun e => if e.1 == k then (e.1, f e.2) else e)

/-- `HashMap::insert` (replace any existing entry for the key). -/
def insertClient (l : List (Nat × OrderRec)) (k : Nat) (v : OrderRec) :
    List (Nat × OrderRec) :=
  (k, v) :: l.filter (fun e => ¬(e.1 == k))

/-- `HashMap` lookup for the `order_id → client_id` reverse index. -/
def lookupOrder (l : List (String × Nat)) (k : String) : Option Nat :=
  (l.find? (fun e => e.1 == k)).map (fun e => e.2)

/-- `HashMap::insert` for the reverse index. -/
def insertOrder (l : List (String × Nat)) (k : String) (v : Nat) :
    List (String × Nat) :=
  (k, v) :: l.filter (fun e => ¬(e.1 == k))

/-- `src/state/orders.rs`: the order-lifecycle table. -/
structure Orders : Type where
  by_client : List (Nat × OrderRec)
  by_order : List (String × Nat)
deriving DecidableEq, Repr

/-- `Orders::default()`. -/
def Orders.default : Orders := ⟨[], []⟩

/-- `src/state/orders.rs`: `Orders::on_fill_by_client` — adds
(`u64::saturating_add`) to `filled_qty`, flips the status to `Filled`
once `filled_qty >= qty`, and reports whether the order is now fully
filled (`none` when the client id is unknown). -/
def Orders.on_fill_by_client (o : Orders) (client_id : Nat) (fill_qty : Nat) :
    Option Bool × Orders :=
  match lookupClient o.by_client client_id with
  | none => (none, o)
  | some rec =>
      let f := u64SatAdd rec.filled_qty fill_qty
      let rec2 :=
        { rec with
          filled_qty := f
          status := if rec.qty ≤ f then OrderStatus.Filled else rec.status }
      (some (if rec.qty ≤ f then true else false),
       { o with by_client := updateClient o.by_client client_id (fun _ => rec2) })

/-- `src/state/orders.rs`: `Orders::on_fill_by_order` — resolve the
exchange id through the reverse index, then `on_fill_by_client`. -/
def Orders.on_fill_by_order (o : Orders) (order_id : String) (fill_qty : Nat) :
    Option Bool × Orders :=
  match lookupOrder o.by_order order_id with
  | none => (none, o)
  | some cid => o.on_fill_by_client cid fill_qty

/-- `src/state/orders.rs`: `Orders::insert_pending`. -/
def Orders.insert_pending (o : Orders) (rec : OrderRec) : Orders :=
  { o with by_client := insertClient o.by_client rec.client_order_id rec }

/-- `src/state/orders.rs`: `Orders::link_order_id`. -/
def Orders.link_order_id (o : Orders) (client_id : Nat) (order_id : String) : Orders :=
  match lookupClient o.by_client client_id with
  | none => o
  | some _ =>
      let f := fun r => { r with order_id := some order_id }
      { by_client := updateClient o.by_client client_id f
        by_order := insertOrder o.by_order order_id client_id }

/-- `src/state/orders.rs`: `Orders::set_status_by_client` — overwrites
the status unconditionally whenever the client id is known. -/
def Orders.set_status_by_client (o : Orders) (client_id : Nat) (st : OrderStatus) :
    Orders :=
  match lookupClient o.by_client client_id with
  | none => o
  | some _ =>
      let f := fun r => { r with status := st }
      { o with by_client := updateClient o.by_client client_id f }

/-- `src/state/orders.rs`: `Orders::set_status_by_order`. -/
def Orders.set_status_by_order (o : Orders) (order_id : String) (st : OrderStatus) :
    Orders :=
  match lookupOrder o.by_order order_id with
  | none => o
  | some cid => o.set_status_by_client cid st

/-- `src/types.rs`: resting-order hint (at most one per side per market). -/
structure RestingHint : Type where
  side : Side
  price_cents : Nat
  created_at : Nat
  cancel_requested_at : Option Nat
  client_order_id : Nat
  order_id : Option String
  queue_ahead : Int
deriving DecidableEq, Repr

/-- `src/state/ticker.rs`: window phase. -/
inductive Mode : Type where
  | Accumulate : Mode
  | Hedge : Mode
  | Balance : Mode
deriving DecidableEq, Repr

/-- `src/types.rs`: commands sent to the execution task. -/
inductive ExecCommand : Type where
  | PlaceOrder (ticker : String) (side : Side) (price_cents : Nat) (qty : Nat)
      (tif : Tif) (post_only : Bool) (client_order_id : Nat) : ExecCommand
  | CancelOrder (ticker : String) (order_id : String) : ExecCommand
deriving DecidableEq, Repr

/-- `src/state/ticker.rs`: per-market aggregate state.

The snapshot's `ticker.rs` lags `engine/decision.rs`, which additionally
reads and writes `window_id`, `momentum_used_extra` and
`last_desired_side` on `Market`; those fields are included here as the
decision engine requires them.  The signal-engine EMA state
(`FlowState`, `src/state/flow.rs`) is never read by the active decision
path (`decide` calls only the `*_simple` side-selection helpers and the
momentum taker is disabled), so it is not modelled. -/
structure Market : Type where
  open_ts : Option Int
  close_ts : Option Int
  book : Book
  pos : Position
  orders : Orders
  resting_yes : Option RestingHint
  resting_no : Option RestingHint
  last_taker_yes : Option Nat
  last_taker_no : Option Nat
  mode : Mode
  window_id : Int
  momentum_used_extra : Int
  last_desired_side : Option Side
deriving DecidableEq, Repr

/-- `src/state/ticker.rs`: `Market::resting_hint`. -/
def Market.resting_hint (m : Market) (side : Side) : Option RestingHint :=
  match side with
  | .Yes => m.resting_yes
  | .No => m.resting_no

/-- `src/state/ticker.rs`: `Market::resting_hint_mut` followed by an
assignment, as a pure update. -/
def Market.set_resting_hint (m : Market) (side : Side) (h : Option RestingHint) : Market :=
  match side with
  | .Yes => { m with resting_yes := h }
  | .No => { m with resting_no := h }

/-- `src/config.rs`: the configuration fields consumed by the embedded
core (`f64` imbalance caps are modelled as `ℚ`). -/
structure Config : Type where
  window_s : Int
  accumulate_s : Int
  balance_s : Int
  aggressive_tick : Nat
  maker_improve_tick : Nat
  max_buy_price_cents : Nat
  safe_pair_cc : Int
  target_pair_cc : Int
  bootstrap_pair_cc : Int
  balance_pair_cc : Int
  bootstrap_max_one_side_qty : Int
  bootstrap_rescue_min_improve_cc : Int
  early_imbalance_cap : ℚ
  late_imbalance_cap : ℚ
  cancel_stale_ms : Nat
  min_resting_life_ms : Nat
  cancel_retry_ms : Nat
  cancel_drift_cents : Nat
  maker_max_edge_cents : Nat
  taker_cooldown_ms : Nat
  min_taker_improve_cc : Int
deriving DecidableEq, Repr

/-!
## Decision engine (`src/engine/decision.rs`)

`decision.rs` imports `TARGET_PAIR_CC` and `SAFE_PAIR_CC` from
`types.rs`, but the snapshot's `types.rs` does not define them; their
values are therefore taken as parameters `tpc`/`spc` of the functions
that use them, and every theorem below holds for all of their values.

Dead code of `decision.rs` is not embedded: `choose_working_side`,
`choose_bootstrap_side`, `maybe_momentum_taker` (its call site is
commented out) and `cancel_wrong_side_if_needed` are never reached from
`decide`, and the debug/logging helpers have no effect on the decision.
-/

/-- `src/engine/decision.rs`: `DOLLAR_CC` (= 10000 cent-cents). -/
def DOLLAR_CC : Int := 100 * CC_PER_CENT

/-- `i64::MAX`, used by the source via `unwrap_or(i64::MAX)`. -/
def I64_MAX : Int := 2 ^ 63 - 1

/-- `u8::abs_diff`. -/
def u8AbsDiff (a b : Nat) : Nat := max a b - min a b

/-- `src/engine/decision.rs`: `has_pair`. -/
def has_pair (m : Market) : Prop := 0 < m.pos.yes_qty ∧ 0 < m.pos.no_qty

instance (m : Market) : Decidable (has_pair m) := by
  unfold has_pair; infer_instance

/-- `src/engine/decision.rs`: `qty_for`. -/
def qty_for (m : Market) (side : Side) : Int :=
  match side with
  | .Yes => m.pos.yes_qty
  | .No => m.pos.no_qty

/-- `src/engine/decision.rs`: `avg_cc_for`. -/
def avg_cc_for (m : Market) (side : Side) : Option Int :=
  match side with
  | .Yes => m.pos.avg_yes_cc
  | .No => m.pos.avg_no_cc

/-- `src/engine/decision.rs`: `max_missing_price_cents` — price cap for
completing the missing side in bootstrap (`clamp(0, max_buy)` is
`max`/`min`). -/
def max_missing_price_cents (cfg : Config) (m : Market) (existing_avg_cc : Int) : Nat :=
  let cap_cc :=
    if m.mode = Mode.Balance then max cfg.balance_pair_cc DOLLAR_CC
    else cfg.bootstrap_pair_cc
  let max_cc := cap_cc - existing_avg_cc
  if max_cc ≤ 0 then 0
  else (min (max (Int.tdiv max_cc CC_PER_CENT) 0) (cfg.max_buy_price_cents : Int)).toNat

/-- `src/engine/decision.rs`: `window_id` — fallback epoch-bucket window
identifier. -/
def window_id (now_s window_s : Int) : Int := Int.tdiv now_s (max window_s 1)

/-- `src/engine/decision.rs`: `time_remaining_s` — fallback time
remaining from epoch buckets. -/
def time_remaining_s (now_s window_s : Int) : Int :=
  let w := max window_s 1
  let start := Int.tdiv now_s w * w
  let stop := start + w
  max (stop - now_s) 0

/-- `src/engine/decision.rs`: `effective_window_s`. -/
def effective_window_s (cfg : Config) (m : Market) : Int :=
  match m.open_ts, m.close_ts with
  | some o, some c => if o < c then max (c - o) 1 else max cfg.window_s 1
  | _, _ => max cfg.window_s 1

/-- `src/engine/decision.rs`: `effective_time_remaining_s` (its `cfg`
parameter is unused in the source as well). -/
def effective_time_remaining_s (_cfg : Config) (m : Market) (now_s window_s : Int) : Int :=
  match m.close_ts with
  | some c => max (c - now_s) 0
  | none =>
      match m.open_ts with
      | some o => max (o + window_s - now_s) 0
      | none => time_remaining_s now_s window_s

/-- `src/engine/decision.rs`: `allowed_imbalance`. -/
def allowed_imbalance (cfg : Config) (t_rem : Int) : ℚ :=
  if t_rem ≤ cfg.balance_s then cfg.late_imbalance_cap else cfg.early_imbalance_cap

/-- `src/engine/decision.rs`: `pick_mode` — mode from time remaining and
the actual window length. -/
def pick_mode (cfg : Config) (t_rem window_s : Int) : Mode :=
  if t_rem ≤ cfg.balance_s then Mode.Balance
  else if window_s - cfg.accumulate_s < t_rem then Mode.Accumulate
  else Mode.Hedge

/-- `src/engine/decision.rs`: `last_taker`. -/
def last_taker (m : Market) (side : Side) : Option Nat :=
  match side with
  | .Yes => m.last_taker_yes
  | .No => m.last_taker_no

/-- `src/engine/decision.rs`: `set_last_taker`. -/
def set_last_taker (m : Market) (side : Side) (t : Nat) : Market :=
  match side with
  | .Yes => { m with last_taker_yes := some t }
  | .No => { m with last_taker_no := some t }

/-- `src/engine/decision.rs`: `top_maker_price` — best bid improved by
the configured tick, clamped to the max buy price and strictly below the
implied ask. -/
def top_maker_price (cfg : Config) (m : Market) (side : Side) : Option Nat :=
  match m.book.best_bid side with
  | none => none
  | some best =>
      let p := min (u8SatAdd best cfg.maker_improve_tick) cfg.max_buy_price_cents
      match m.book.implied_ask side with
      | some ask => if ask = 0 then none else some (min p (ask - 1))
      | none => some p

/-- `src/engine/decision.rs`: `best_price_under_pair_cap` — scan prices
downward from `max_price` to `min_price` for the first whose simulated
1-lot fill keeps the pair cost under `cap_cc` (and, when
`require_noworse`, no worse than the current pair cost). -/
def best_price_under_pair_cap (m : Market) (side : Side) (max_price min_price : Nat)
    (cap_cc : Int) (require_noworse : Bool) : Option Nat :=
  let old_pair := m.pos.pair_cost_cc
  if max_price < min_price then none
  else
    (List.range' min_price (max_price - min_price + 1)).reverse.find? (fun p =>
      match (m.pos.simulate_buy side p 1).pair_cost_cc with
      | none => false
      | some new_pc =>
          if cap_cc < new_pc then false
          else if require_noworse then
            match old_pair with
            | some old_pc => if old_pc < new_pc then false else true
            | none => true
          else true)

/-- `src/engine/decision.rs`: `best_maker_pc_for_side`. -/
def best_maker_pc_for_side (cfg : Config) (m : Market) (side : Side) (cap_cc : Int) :
    Option (Nat × Int) :=
  match top_maker_price cfg m side with
  | none => none
  | some top =>
      let min_price := top - cfg.maker_max_edge_cents
      match best_price_under_pair_cap m side top min_price cap_cc true with
      | none => none
      | some p =>
          match (m.pos.simulate_buy side p 1).pair_cost_cc with
          | none => none
          | some pc => some (p, pc)

/-- `src/engine/decision.rs`: `can_rescue_existing` — a maker price on
the already-held side that improves its average cost by at least the
configured minimum. -/
def can_rescue_existing (cfg : Config) (m : Market) (existing : Side) :
    Option (Nat × Int) :=
  match avg_cc_for m existing with
  | none => none
  | some existing_avg_cc =>
      let existing_avg_cents := (min (max (Int.tdiv existing_avg_cc CC_PER_CENT) 0) 100).toNat
      match top_maker_price cfg m existing with
      | none => none
      | some p =>
          if existing_avg_cents ≤ p then none
          else
            let sim := m.pos.simulate_buy existing p 1
            match (match existing with | .Yes => sim.avg_yes_cc | .No => sim.avg_no_cc) with
            | none => none
            | some new_avg_cc =>
                let improve_cc := existing_avg_cc - new_avg_cc
                if improve_cc < cfg.bootstrap_rescue_min_improve_cc then none
                else some (p, improve_cc)

/-- `src/engine/decision.rs`: `hedge_side` — the under-weighted side;
when flat or balanced, the side with the cheaper implied ask (`Yes` on
ties or missing data). -/
def hedge_side (m : Market) : Side :=
  if m.pos.yes_qty < m.pos.no_qty then Side.Yes
  else if m.pos.no_qty < m.pos.yes_qty then Side.No
  else
    match m.book.implied_ask .Yes, m.book.implied_ask .No with
    | some ay, some an => if ay ≤ an then Side.Yes else Side.No
    | some _, none => Side.Yes
    | none, some _ => Side.No
    | none, none => Side.Yes

/-- `src/engine/decision.rs`: tail of `choose_bootstrap_side_simple`
(the rescue-vs-park decision after the hedge-under-cap check failed). -/
def choose_bootstrap_rescue (cfg : Config) (m : Market) (existing missing : Side) : Side :=
  if qty_for m existing < cfg.bootstrap_max_one_side_qty ∧
      (can_rescue_existing cfg m existing).isSome then existing
  else missing

/-- `src/engine/decision.rs`: `choose_bootstrap_side_simple` — signal-free
bootstrap side selection. -/
def choose_bootstrap_side_simple (cfg : Config) (m : Market) : Side :=
  if m.pos.yes_qty = 0 ∧ m.pos.no_qty = 0 then hedge_side m
  else
    let existing := if 0 < m.pos.yes_qty then Side.Yes else Side.No
    let missing := existing.other
    if m.mode = Mode.Balance then missing
    else
      let existing_avg_cc := (avg_cc_for m existing).getD 0
      let max_missing := max_missing_price_cents cfg m existing_avg_cc
      match m.book.implied_ask missing with
      | some a =>
          if a ≤ max_missing then missing
          else choose_bootstrap_rescue cfg m existing missing
      | none => choose_bootstrap_rescue cfg m existing missing

/-- `src/engine/decision.rs`: the per-side candidate of the paired loop
in `choose_working_side_simple` (`(side, new_pc, price, spread)`). -/
def cws_candidate (cfg : Config) (m : Market) (imbalance_cap : ℚ) (cap_cc : Int)
    (side : Side) : Option (Side × Int × Nat × Nat) :=
  if imbalance_cap < (m.pos.simulate_buy side 0 1).imbalance_frac then none
  else
    match top_maker_price cfg m side with
    | none => none
    | some top =>
        let min_price := top - cfg.maker_max_edge_cents
        match best_price_under_pair_cap m side top min_price cap_cc true with
        | none => none
        | some p =>
            match (m.pos.simulate_buy side p 1).pair_cost_cc with
            | none => none
            | some new_pc =>
                let bid := (m.book.best_bid side).getD 0
                let ask := (m.book.implied_ask side).getD 100
                some (side, new_pc, p, ask - bid)

/-- `src/engine/decision.rs`: `choose_working_side_simple` — signal-free,
pair-cost-greedy working-side selection. -/
def choose_working_side_simple (cfg : Config) (tpc : Int) (m : Market) (t_rem : Int) :
    Side :=
  let imbalance_cap := allowed_imbalance cfg t_rem
  if m.mode = Mode.Balance ∨ imbalance_cap < m.pos.imbalance_frac then hedge_side m
  else if 0 < m.pos.yes_qty ∧ m.pos.no_qty = 0 then Side.No
  else if 0 < m.pos.no_qty ∧ m.pos.yes_qty = 0 then Side.Yes
  else if m.pos.yes_qty = 0 ∧ m.pos.no_qty = 0 then hedge_side m
  else
    let old_pc := (m.pos.pair_cost_cc).getD I64_MAX
    let cap_target := max cfg.target_pair_cc tpc
    let cap_cc := if old_pc ≤ cap_target then cap_target else old_pc
    let best := [Side.Yes, Side.No].foldl (fun best side =>
      match cws_candidate cfg m imbalance_cap cap_cc side with
      | none => best
      | some c =>
          match best with
          | none => some c
          | some b =>
              if c.2.1 < b.2.1 ∨ (c.2.1 = b.2.1 ∧ c.2.2.2 < b.2.2.2) then some c
              else some b) none
    match best with
    | some (s, _, _, _) => s
    | none => hedge_side m

/-- `src/engine/decision.rs`: one side of the `cancel_stale_if_needed`
loop; `some` carries the command together with the mutated market (the
source marks `cancel_requested_at` just before returning the command). -/
def cancel_stale_side (cfg : Config) (ticker : String) (m : Market) (now : Nat)
    (side : Side) : Option (ExecCommand × Market) :=
  match m.resting_hint side with
  | none => none
  | some h =>
      match h.order_id with
      | none => none
      | some oid =>
          let age_ms := now - h.created_at
          if age_ms < cfg.min_resting_life_ms then none
          else
            let stale_check :=
              if cfg.cancel_stale_ms ≤ age_ms then
                some (ExecCommand.CancelOrder ticker oid,
                  m.set_resting_hint side (some { h with cancel_requested_at := some now }))
              else none
            match h.cancel_requested_at with
            | some t0 => if now - t0 < cfg.cancel_retry_ms then none else stale_check
            | none => stale_check

/-- `src/engine/decision.rs`: `cancel_stale_if_needed` — first stale
resting hint (in side order `Yes`, `No`) wins. -/
def cancel_stale_if_needed (cfg : Config) (ticker : String) (m : Market) (now : Nat) :
    Option ExecCommand × Market :=
  match cancel_stale_side cfg ticker m now .Yes with
  | some (c, m2) => (some c, m2)
  | none =>
      match cancel_stale_side cfg ticker m now .No with
      | some (c, m2) => (some c, m2)
      | none => (none, m)

/-- `src/engine/decision.rs`: bootstrap branch of
`maybe_opportunistic_taker` — returns the ask to cross, if any. -/
def taker_bootstrap_choice (cfg : Config) (m : Market) (now : Nat) (side : Side) :
    Option Nat :=
  match m.book.implied_ask side with
  | none => none
  | some ask =>
      if cfg.max_buy_price_cents < ask then none
      else
        let after_cooldown :=
          if 0 < m.pos.yes_qty ∨ 0 < m.pos.no_qty then
            let existing := if 0 < m.pos.yes_qty then Side.Yes else Side.No
            let missing := existing.other
            if side ≠ missing then none
            else
              match avg_cc_for m existing with
              | none => none
              | some existing_avg_cc =>
                  let max_missing := max_missing_price_cents cfg m existing_avg_cc
                  if max_missing < ask then none
                  else if m.mode ≠ Mode.Balance then
                    match m.book.best_bid side with
                    | none => none
                    | some best =>
                        if u8SatAdd best cfg.aggressive_tick < ask then none else some ask
                  else some ask
          else
            if m.mode ≠ Mode.Balance then
              match m.book.best_bid side with
              | none => none
              | some best =>
                  if u8SatAdd best cfg.aggressive_tick < ask then none else some ask
            else some ask
        match last_taker m side with
        | some last => if now - last < cfg.taker_cooldown_ms then none else after_cooldown
        | none => after_cooldown

/-- `src/engine/decision.rs`: one side of the paired loop of
`maybe_opportunistic_taker` (`(side, ask, new_pc)` when the side is a
candidate for an IOC crossing). -/
def taker_paired_candidate (cfg : Config) (m : Market) (now : Nat)
    (imbalance_cap : ℚ) (must_balance : Bool) (hedge : Side)
    (cap_target cap_balance old_pc cap_for_maker : Int) (side : Side) :
    Option (Side × Nat × Int) :=
  if must_balance ∧ side ≠ hedge then none
  else if ¬must_balance ∧ imbalance_cap < (m.pos.simulate_buy side 0 1).imbalance_frac then
    none
  else
    match m.book.implied_ask side with
    | none => none
    | some ask =>
        if cfg.max_buy_price_cents < ask then none
        else
          let after_cooldown :=
            match (m.pos.simulate_buy side ask 1).pair_cost_cc with
            | none => none
            | some new_pc =>
                -- `if must_balance && new_pc <= cap_balance { push; continue; }`:
                -- otherwise (also when must_balance holds but the balance cap
                -- is exceeded) execution falls through to the taker-vs-maker
                -- gate below.
                if must_balance ∧ new_pc ≤ cap_balance then some (side, ask, new_pc)
                else
                  let maker_pc :=
                    match best_maker_pc_for_side cfg m side cap_for_maker with
                    | some pr => pr.2
                    | none => I64_MAX
                  let bid := (m.book.best_bid side).getD 0
                  if new_pc ≤ cap_target ∧
                      (ask ≤ u8SatAdd bid cfg.aggressive_tick ∨ new_pc ≤ maker_pc) then
                    some (side, ask, new_pc)
                  else if cfg.min_taker_improve_cc ≤ old_pc - new_pc ∧
                      (ask ≤ u8SatAdd bid cfg.aggressive_tick ∨ new_pc ≤ maker_pc) then
                    some (side, ask, new_pc)
                  else none
          match last_taker m side with
          | some last =>
              if now - last < cfg.taker_cooldown_ms then none else after_cooldown
          | none => after_cooldown

/-- `src/engine/decision.rs`: `maybe_opportunistic_taker` — cross the
spread with a 1-lot IOC when the ask is cheap enough.  The source's two
emission sites (bootstrap and paired) are syntactically identical
(insert a pending 1-lot IOC record, stamp the taker cooldown, return
`PlaceOrder`); they are factored into the single emission point below. -/
def maybe_opportunistic_taker (cfg : Config) (tpc : Int) (ticker : String) (m : Market)
    (now : Nat) (t_rem : Int) (desired_side : Side) (fresh : Nat) :
    Option ExecCommand × Market :=
  let choice : Option (Side × Nat) :=
    if ¬ has_pair m then
      match taker_bootstrap_choice cfg m now desired_side with
      | some ask => some (desired_side, ask)
      | none => none
    else
      let imbalance_cap := allowed_imbalance cfg t_rem
      let must_balance : Bool :=
        if m.mode = Mode.Balance ∨ imbalance_cap < m.pos.imbalance_frac then true else false
      let hedge := hedge_side m
      let cap_target := max cfg.target_pair_cc tpc
      let cap_balance := max cfg.balance_pair_cc DOLLAR_CC
      let old_pc := (m.pos.pair_cost_cc).getD I64_MAX
      let cap_for_maker := if old_pc ≤ cap_target then cap_target else old_pc
      let best := [Side.Yes, Side.No].foldl (fun best side =>
        match taker_paired_candidate cfg m now imbalance_cap must_balance hedge
            cap_target cap_balance old_pc cap_for_maker side with
        | none => best
        | some c =>
            match best with
            | none => some c
            | some b => if c.2.2 < b.2.2 then some c else some b) none
      match best with
      | some (s, a, _) => some (s, a)
      | none => none
  match choice with
  | none => (none, m)
  | some (side, ask) =>
      let rec0 : OrderRec :=
        { ticker := ticker, side := side, price_cents := ask, qty := 1, tif := .Ioc
          post_only := false, order_id := none, client_order_id := fresh
          status := .PendingAck, created_at := now, filled_qty := 0 }
      let m2 := { m with orders := m.orders.insert_pending rec0 }
      let m3 := set_last_taker m2 side now
      (some (.PlaceOrder ticker side ask 1 .Ioc false fresh), m3)

/-- `src/engine/decision.rs`: the leading block of `maybe_maker_quote`
that cancels a resting order on the non-desired side (falls through as
`none` when there is nothing to cancel yet). -/
def maker_cancel_other (cfg : Config) (ticker : String) (m : Market) (now : Nat)
    (other : Side) : Option (ExecCommand × Market) :=
  match m.resting_hint other with
  | none => none
  | some h =>
      match h.order_id with
      | none => none
      | some oid =>
          if cfg.min_resting_life_ms ≤ now - h.created_at then
            let do_cancel :=
              some (ExecCommand.CancelOrder ticker oid,
                m.set_resting_hint other (some { h with cancel_requested_at := some now }))
            match h.cancel_requested_at with
            | none => do_cancel
            | some t0 => if cfg.cancel_retry_ms ≤ now - t0 then do_cancel else none
          else none

/-- `src/engine/decision.rs`: `place_or_manage_resting` — leave a
same-price resting order untouched, cancel it on a big enough price
drift after its minimum life, or place a fresh 1-lot post-only GTC quote
when the side has no hint.  (The paired tail of `maybe_maker_quote`,
lines 979–1052, inlines an identical copy of this logic and is embedded
through this definition.) -/
def place_or_manage_resting (cfg : Config) (ticker : String) (m : Market) (now : Nat)
    (side : Side) (p : Nat) (fresh : Nat) : Option ExecCommand × Market :=
  match m.resting_hint side with
  | some existing =>
      if existing.price_cents = p then (none, m)
      else if now - existing.created_at < cfg.min_resting_life_ms then (none, m)
      else
        let drift_check : Option ExecCommand × Market :=
          if cfg.cancel_drift_cents ≤ u8AbsDiff existing.price_cents p then
            match existing.order_id with
            | none => (none, m)
            | some oid =>
                (some (.CancelOrder ticker oid),
                  m.set_resting_hint side
                    (some { existing with cancel_requested_at := some now }))
          else (none, m)
        match existing.cancel_requested_at with
        | some t0 => if now - t0 < cfg.cancel_retry_ms then (none, m) else drift_check
        | none => drift_check
  | none =>
      let rec0 : OrderRec :=
        { ticker := ticker, side := side, price_cents := p, qty := 1, tif := .Gtc
          post_only := true, order_id := none, client_order_id := fresh
          status := .PendingAck, created_at := now, filled_qty := 0 }
      let queue_ahead :=
        match side with
        | .Yes => listGet m.book.yes_bids p
        | .No => listGet m.book.no_bids p
      let m2 := { m with orders := m.orders.insert_pending rec0 }
      let m3 := m2.set_resting_hint side (some
        { side := side, price_cents := p, created_at := now, cancel_requested_at := none
          client_order_id := fresh, order_id := none, queue_ahead := queue_ahead })
      (some (.PlaceOrder ticker side p 1 .Gtc true fresh), m3)

/-- `src/engine/decision.rs`: `maybe_maker_quote` — maintain at most one
resting quote on the desired side within the phase-appropriate pair-cost
cap. -/
def maybe_maker_quote (cfg : Config) (tpc spc : Int) (ticker : String) (m : Market)
    (now : Nat) (_t_rem : Int) (desired_side : Side) (fresh : Nat) :
    Option ExecCommand × Market :=
  match maker_cancel_other cfg ticker m now desired_side.other with
  | some (c, m2) => (some c, m2)
  | none =>
      let cap_target := max cfg.target_pair_cc tpc
      let cap_safe := max cfg.safe_pair_cc spc
      let cap_balance := max cfg.balance_pair_cc DOLLAR_CC
      match top_maker_price cfg m desired_side with
      | none => (none, m)
      | some top =>
          let min_price := top - cfg.maker_max_edge_cents
          if ¬ has_pair m then
            if m.pos.yes_qty = 0 ∧ m.pos.no_qty = 0 then
              place_or_manage_resting cfg ticker m now desired_side top fresh
            else
              let existing := if 0 < m.pos.yes_qty then Side.Yes else Side.No
              let missing := existing.other
              if desired_side = missing then
                match avg_cc_for m existing with
                | none => (none, m)
                | some existing_avg_cc =>
                    let max_missing := max_missing_price_cents cfg m existing_avg_cc
                    if max_missing = 0 then (none, m)
                    else
                      place_or_manage_resting cfg ticker m now desired_side
                        (min top max_missing) fresh
              else
                if cfg.bootstrap_max_one_side_qty ≤ qty_for m existing then (none, m)
                else
                  match can_rescue_existing cfg m existing with
                  | none => (none, m)
                  | some (p, _) =>
                      place_or_manage_resting cfg ticker m now desired_side p fresh
          else
            let old_pc := (m.pos.pair_cost_cc).getD cap_safe
            let pOpt :=
              if m.mode = Mode.Balance then
                best_price_under_pair_cap m desired_side top min_price cap_balance false
              else if old_pc ≤ cap_target then
                best_price_under_pair_cap m desired_side top min_price cap_target true
              else
                best_price_under_pair_cap m desired_side top min_price old_pc true
            match pOpt with
            | none => (none, m)
            | some p => place_or_manage_resting cfg ticker m now desired_side p fresh

/-- `src/engine/decision.rs`: the leading section of `decide`'s body —
window/timing computation, per-window counter reset, mode update and
working-side selection — returning the prepared market, the desired side
and the time remaining.  The debug/logging section (source lines
1172–1308) only feeds log output and the signal-EMA state, which the
active decision path never reads, and is omitted. -/
def decide_prep (cfg : Config) (tpc : Int) (m : Market) (now_s : Int) :
    Market × Side × Int :=
  let window_s := effective_window_s cfg m
  let t_rem := effective_time_remaining_s cfg m now_s window_s
  let wid := m.open_ts.getD (window_id now_s window_s)
  let m1 :=
    if m.window_id ≠ wid then
      { m with window_id := wid, momentum_used_extra := 0, last_desired_side := none }
    else m
  let m2 := { m1 with mode := pick_mode cfg t_rem window_s }
  let desired_side :=
    if has_pair m2 then choose_working_side_simple cfg tpc m2 t_rem
    else choose_bootstrap_side_simple cfg m2
  ({ m2 with last_desired_side := some desired_side }, desired_side, t_rem)

/-- `src/engine/decision.rs`: body of `decide` after the close-time
guard.  Wall-clock reads (`unix_now_s`, `Instant::now`) are the
parameters `now_s` (epoch seconds) and `now` (milliseconds); the two
`Uuid::new_v4()` calls are the parameters `freshT` (taker) and `freshM`
(maker). -/
def decide_body (cfg : Config) (tpc spc : Int) (ticker : String) (m : Market)
    (now_s : Int) (now : Nat) (freshT freshM : Nat) : Option ExecCommand × Market :=
  let prep := decide_prep cfg tpc m now_s
  match cancel_stale_if_needed cfg ticker prep.1 now with
  | (some c, m4) => (some c, m4)
  | (none, m4) =>
      match maybe_opportunistic_taker cfg tpc ticker m4 now prep.2.2 prep.2.1 freshT with
      | (some c, m5) => (some c, m5)
      | (none, m5) =>
          maybe_maker_quote cfg tpc spc ticker m5 now prep.2.2 prep.2.1 freshM

/-- `src/engine/decision.rs`: `decide` — the per-tick decision engine:
no action after the window close, else cancel-stale, then opportunistic
taker, then maker quote (first match wins). -/
def decide (cfg : Config) (tpc spc : Int) (ticker : String) (m : Market)
    (now_s : Int) (now : Nat) (freshT freshM : Nat) : Option ExecCommand × Market :=
  match m.close_ts with
  | some c =>
      if c ≤ now_s then (none, m)
      else decide_body cfg tpc spc ticker m now_s now freshT freshM
  | none => decide_body cfg tpc spc ticker m now_s now freshT freshM

/-- `src/exec/paper.rs`: `paper_on_delta_queue` — a negative book delta
at the resting order's own price reduces the estimated queue ahead,
never below zero. -/
def paper_on_delta_queue (m : Market) (side : Side) (price : Nat) (delta : Int) : Market :=
  if 0 ≤ delta then m
  else
    match m.resting_hint side with
    | none => m
    | some h =>
        if h.price_cents = price ∧ h.order_id.isSome then
          m.set_resting_hint side (some { h with queue_ahead := max (h.queue_ahead + delta) 0 })
        else m

/-- `src/exec/paper.rs`: the tail of `paper_on_trade_fill` after the
queue-ahead has been consumed (`m1` already carries the mutated hint):
look up the order, fill it at its own posted price up to the smaller of
its remaining quantity and the print quantity left over, and clear the
hint when the order becomes fully filled. -/
def paper_fill_tail (m1 : Market) (maker_side : Side) (client_id posted_price : Nat)
    (remaining : Int) : Market :=
  if remaining ≤ 0 then m1
  else
    let remaining_after_queue : Nat := remaining.toNat
    match lookupClient m1.orders.by_client client_id with
    | none => m1
    | some rec =>
        let order_remaining := rec.qty - rec.filled_qty
        if order_remaining = 0 then m1
        else
          let fill_qty := min order_remaining remaining_after_queue
          if fill_qty = 0 then m1
          else
            let m2 := { m1 with
              pos := m1.pos.apply_fill maker_side posted_price (fill_qty : Int) }
            let res := m2.orders.on_fill_by_client client_id fill_qty
            let m3 := { m2 with orders := res.2 }
            if res.1 = some true then m3.set_resting_hint maker_side none else m3

/-- `src/exec/paper.rs`: `paper_on_trade_fill` — queue-position-aware
maker fill from a trade print.  All mutations made through the hint
borrow (queue-ahead reset on a through print, queue consumption) persist
even when the function then returns without filling, exactly as in the
source. -/
def paper_on_trade_fill (m : Market) (taker_side : Side) (yes_price no_price : Nat)
    (count : Int) : Market :=
  let fillable : Nat := (max count 0).toNat
  if fillable = 0 then m
  else
    let maker_side := taker_side.other
    let maker_price :=
      match maker_side with
      | .Yes => yes_price
      | .No => no_price
    match m.resting_hint maker_side with
    | none => m
    | some h0 =>
        if h0.order_id = none then m
        else if h0.price_cents < maker_price then m
        else
          let h1 := if maker_price < h0.price_cents then { h0 with queue_ahead := 0 } else h0
          let consume := if 0 < h1.queue_ahead then min h1.queue_ahead (fillable : Int) else 0
          let h2 := { h1 with queue_ahead := h1.queue_ahead - consume }
          let remaining : Int := (fillable : Int) - consume
          let m1 := m.set_resting_hint maker_side (some h2)
          paper_fill_tail m1 maker_side h2.client_order_id h2.price_cents remaining

end ArbBot

namespace ArbBot

def mkBids (l : List (Nat × Int)) : List Int :=
  l.foldl (fun a pq => listSet a pq.1 pq.2) (List.replicate 101 0)

def bookYN : Book := { yes_bids := mkBids [(40, 5)], no_bids := mkBids [(55, 7)], last_seq := 7 }

def cfg0 : Config :=
  { window_s := 900, accumulate_s := 300, balance_s := 300, aggressive_tick := 1
    maker_improve_tick := 1, max_buy_price_cents := 99, safe_pair_cc := 9900
    target_pair_cc := 9825, bootstrap_pair_cc := 9800, balance_pair_cc := 9990
    bootstrap_max_one_side_qty := 3, bootstrap_rescue_min_improve_cc := 50
    early_imbalance_cap := 3/5, late_imbalance_cap := 1/5, cancel_stale_ms := 8000
    min_resting_life_ms := 1500, cancel_retry_ms := 1500, cancel_drift_cents := 2
    maker_max_edge_cents := 3, taker_cooldown_ms := 3000, min_taker_improve_cc := 25 }

def rec7 : OrderRec :=
  { ticker := "T", side := .Yes, price_cents := 45, qty := 1, tif := .Gtc, post_only := true
    order_id := some "paper-1", client_order_id := 7, status := .Resting, created_at := 0
    filled_qty := 0 }

def hint7 : RestingHint :=
  { side := .Yes, price_cents := 45, created_at := 500000, cancel_requested_at := none
    client_order_id := 7, order_id := some "paper-1", queue_ahead := 0 }

def m6 : Market :=
  { open_ts := some 0, close_ts := some 1000, book := bookYN, pos := Position.default
    orders := { by_client := [(7, rec7)], by_order := [("paper-1", 7)] }
    resting_yes := some hint7, resting_no := none, last_taker_yes := none
    last_taker_no := none, mode := .Accumulate, window_id := 0, momentum_used_extra := 0
    last_desired_side := none }

def mW : Market :=
  { open_ts := some 0, close_ts := some 1000, book := bookYN, pos := Position.default
    orders := Orders.default, resting_yes := none, resting_no := none
    last_taker_yes := none, last_taker_no := none, mode := .Accumulate, window_id := 0
    momentum_used_extra := 0, last_desired_side := none }

/-- Projection used to state the pair-cost accounting property
(`cost_on(side)` in the specification's wording). -/
def Position.cost_on (p : Position) (side : Side) : Int :=
  match side with
  | .Yes => p.yes_cost_cc
  | .No => p.no_cost_cc

/-- Projection: held quantity on a side. -/
def Position.qty_on (p : Position) (side : Side) : Int :=
  match side with
  | .Yes => p.yes_qty
  | .No => p.no_qty

/-- Number of `PlaceOrder` actions in a decision result (0 or 1). -/
def countPlace : Option ExecCommand → Nat
  | some (.PlaceOrder _ _ _ _ _ _ _) => 1
  | _ => 0

/-- Concrete order-lifecycle record: a resting 1-lot at 45 with `qty = 5`. -/
def recC1 : OrderRec :=
  { ticker := "T", side := .Yes, price_cents := 45, qty := 5, tif := .Gtc, post_only := true
    order_id := some "x1", client_order_id := 1, status := .Resting, created_at := 0
    filled_qty := 0 }

/-- Concrete order table holding `recC1`. -/
def ordersC1 : Orders := { by_client := [(1, recC1)], by_order := [("x1", 1)] }

/-- Concrete order table holding a terminally `Filled` record. -/
def ordersC5 : Orders :=
  { by_client := [(1, { recC1 with status := .Filled, filled_qty := 5 })]
    by_order := [("x1", 1)] }

/-- Concrete resting hint for the paper-fill scenario: posted at 45,
one lot queued ahead. -/
def hintP : RestingHint :=
  { side := .Yes, price_cents := 45, created_at := 0, cancel_requested_at := none
    client_order_id := 3, order_id := some "p3", queue_ahead := 1 }

/-- Concrete partially-filled resting order (`qty = 5`, `filled = 1`). -/
def recP : OrderRec :=
  { ticker := "T", side := .Yes, price_cents := 45, qty := 5, tif := .Gtc, post_only := true
    order_id := some "p3", client_order_id := 3, status := .Resting, created_at := 0
    filled_qty := 1 }

/-- Concrete paper-trading market: `recP` resting at 45 behind one lot. -/
def mP : Market :=
  { open_ts := some 0, close_ts := some 1000, book := bookYN, pos := Position.default
    orders := { by_client := [(3, recP)], by_order := [("p3", 3)] }
    resting_yes := some hintP, resting_no := none, last_taker_yes := none
    last_taker_no := none, mode := .Accumulate, window_id := 0, momentum_used_extra := 0
    last_desired_side := none }

/-- Variant of `mP` whose resting order is already fully filled. -/
def mP0 : Market :=
  { mP with orders := { by_client := [(3, { recP with filled_qty := 5 })]
                        by_order := [("p3", 3)] } }

/-- The fill quantity `paper_on_trade_fill` applies to the hinted order:
the minimum of the order's remaining quantity and the print count left
after consuming queue-ahead (with the queue treated as swept when the
print went through the posted price), mirroring the quantities the
function computes on its fill path. -/
def paper_fill_applied (taker_side : Side) (yes_price no_price : Nat) (count : Int)
    (h : RestingHint) (rec : OrderRec) : Nat :=
  let fillable : Nat := (max count 0).toNat
  let maker_price :=
    match taker_side.other with
    | Side.Yes => yes_price
    | Side.No => no_price
  let qeff : Int := if maker_price < h.price_cents then 0 else h.queue_ahead
  let consume : Int := if 0 < qeff then min qeff (fillable : Int) else 0
  min (rec.qty - rec.filled_qty) ((fillable : Int) - consume).toNat

/-!
## Helper lemmas
-/

/-- Updating the entry at a key rewrites exactly what lookup sees there. -/
theorem lookupClient_updateClient (l : List (Nat × OrderRec)) (k : Nat)
    (f : OrderRec → OrderRec) :
    lookupClient (updateClient l k f) k = (lookupClient l k).map f := by
  induction l with
  | nil => rfl
  | cons e t ih =>
      by_cases h : e.1 = k
      · simp [lookupClient, updateClient, List.find?, h]
      · have hb : (e.1 == k) = false := by simpa using h
        simpa [lookupClient, updateClient, List.find?, hb] using ih

/-- Characterization of `Orders::on_fill_by_client` at a known record:
the fill is added with `u64::saturating_add` and the status flips to
`Filled` exactly when the cumulative fill reaches the requested
quantity. -/
theorem on_fill_by_client_found (o : Orders) (cid : Nat) (fq : Nat) (rec : OrderRec)
    (h : lookupClient o.by_client cid = some rec) :
    (o.on_fill_by_client cid fq).1 =
      some (if rec.qty ≤ u64SatAdd rec.filled_qty fq then true else false) ∧
    lookupClient (o.on_fill_by_client cid fq).2.by_client cid =
      some { rec with
        filled_qty := u64SatAdd rec.filled_qty fq
        status := if rec.qty ≤ u64SatAdd rec.filled_qty fq then .Filled else rec.status } := by
  unfold Orders.on_fill_by_client
  rw [h]
  refine ⟨rfl, ?_⟩
  rw [lookupClient_updateClient, h]
  rfl

/-- A price found by the descending best-bid scan is within the scanned
range. -/
theorem bestBidFrom_le (arr : List Int) (n p : Nat) (h : bestBidFrom arr n = some p) :
    p ≤ n := by
  induction n with
  | zero =>
      unfold bestBidFrom at h
      split at h
      · cases h; exact Nat.le_refl 0
      · cases h
  | succ n ih =>
      unfold bestBidFrom at h
      split at h
      · cases h; exact Nat.le_refl _
      · exact Nat.le_succ_of_le (ih h)

/-- The descending best-bid scan fails exactly when no scanned cell is
positive. -/
theorem bestBidFrom_eq_none (arr : List Int) (n : Nat) :
    bestBidFrom arr n = none ↔ ∀ p, p ≤ n → listGet arr p ≤ 0 := by
  induction n with
  | zero =>
      unfold bestBidFrom
      constructor
      · intro h p hp
        interval_cases p
        split at h
        · cases h
        · omega
      · intro h
        have := h 0 (Nat.le_refl 0)
        split
        · omega
        · rfl
  | succ n ih =>
      unfold bestBidFrom
      constructor
      · intro h p hp
        split at h
        · cases h
        · rcases Nat.lt_or_ge p (n + 1) with hlt | hge
          · exact (ih.mp h) p (Nat.lt_succ_iff.mp hlt)
          · have : p = n + 1 := Nat.le_antisymm hp hge
            subst this
            omega
      · intro h
        split
        · exfalso
          have := h (n + 1) (Nat.le_refl _)
          omega
        · exact ih.mpr (fun p hp => h p (Nat.le_succ_of_le hp))

/-!
## C1 — fill reconciliation
-/

/-- C1 counterexample: a record with `qty = 5` that received fills of 2
and 3 is `Filled`, but a further spurious fill of 1 pushes `filled_qty`
to 6, exceeding the requested quantity 5 — `on_fill_by_client` adds with
`u64::saturating_add` and never caps at `qty`, so the claim that
`filled_qty` never exceeds `qty` is false. -/
theorem C1_counterexample :
    (lookupClient ((ordersC1.on_fill_by_client 1 2).2.on_fill_by_client 1 3).2.by_client
      1).map OrderRec.status = some OrderStatus.Filled ∧
    (lookupClient
      ((((ordersC1.on_fill_by_client 1 2).2.on_fill_by_client 1 3).2.on_fill_by_client
        1 1).2).by_client 1).map OrderRec.filled_qty = some 6 := by
  decide

/-- C1 amended: each fill notification adds its quantity to
`filled_qty` with `u64::saturating_add` and no cap at the requested
quantity, the status flips to `Filled` exactly when the cumulative fill
reaches `qty` (so the `qty = 5` record is `Filled` after fills of 2 and
3), and a spurious further fill keeps accumulating beyond `qty`
(2 + 3 + 1 gives `filled_qty = 6 > 5`); `on_fill_by_order` is the same
operation reached through the exchange-id index. -/
theorem C1_fill_accumulation (o : Orders) (cid fq : Nat) (rec : OrderRec)
    (h : lookupClient o.by_client cid = some rec) :
    ((o.on_fill_by_client cid fq).1 =
        some (if rec.qty ≤ u64SatAdd rec.filled_qty fq then true else false) ∧
      lookupClient (o.on_fill_by_client cid fq).2.by_client cid =
        some { rec with
          filled_qty := u64SatAdd rec.filled_qty fq
          status := if rec.qty ≤ u64SatAdd rec.filled_qty fq then .Filled
                    else rec.status }) ∧
    ∀ oid, lookupOrder o.by_order oid = some cid →
      o.on_fill_by_order oid fq = o.on_fill_by_client cid fq := by
  refine ⟨on_fill_by_client_found o cid fq rec h, ?_⟩
  intro oid hoid
  unfold Orders.on_fill_by_order
  rw [hoid]

/-- C1 witness: the characterization evaluated on the concrete table
`ordersC1` (`qty = 5`, first fill of 2: not yet filled, `filled_qty = 2`). -/
theorem C1_fill_accumulation_witness :
    (ordersC1.on_fill_by_client 1 2).1 = some false ∧
    (lookupClient (ordersC1.on_fill_by_client 1 2).2.by_client 1).map
      OrderRec.filled_qty = some 2 := by
  have h := C1_fill_accumulation ordersC1 1 2 recC1 (by decide)
  refine ⟨?_, ?_⟩
  · rw [h.1.1]; decide
  · rw [h.1.2]; decide

/-!
## C2 — desynchronized delta rejected without mutation
-/

/-- C2: on an initialized book (`last_seq ≥ 0`), a delta whose sequence
is not `last_seq + 1` is rejected: `apply_delta` returns `false` and the
book — both bid arrays and `last_seq` — is returned unchanged. -/
theorem C2_desync_rejected (b : Book) (seq : Int) (side : Side) (price : Nat)
    (delta : Int) (hinit : 0 ≤ b.last_seq) (hseq : seq ≠ b.last_seq + 1) :
    b.apply_delta seq side price delta = (false, b) := by
  unfold Book.apply_delta
  rw [if_pos ⟨hinit, hseq⟩]

/-- C2 witness: a concrete initialized book (`last_seq = 7`) rejects a
delta with sequence 9 and is unchanged. -/
theorem C2_desync_rejected_witness :
    bookYN.apply_delta 9 .Yes 40 3 = (false, bookYN) :=
  C2_desync_rejected bookYN 9 .Yes 40 3 (by decide) (by decide)

/-!
## C3 — in-sequence delta application
-/

/-- C3 counterexample: the claim asserts that an in-sequence delta at any
`u8` price, including prices above 100, sets `last_seq` to the given
sequence; in fact `apply_delta` returns `true` for a price above 100 but
leaves the book — including `last_seq` — completely unchanged (the delta
is silently dropped): on `bookYN` (`last_seq = 7`) the in-sequence delta
8 at price 101 returns `true` with `last_seq` still 7. -/
theorem C3_counterexample :
    bookYN.apply_delta 8 .Yes 101 3 = (true, bookYN) ∧ bookYN.last_seq = 7 := by
  decide

/-- C3 amended: when the book is uninitialized (`last_seq < 0`) or the
delta is in sequence, `apply_delta` returns `true`; for a price at most
100 it replaces that side's quantity at that price with
`max(previous + delta, 0)` and advances `last_seq` to the given
sequence, while for a price above 100 it leaves the whole book unchanged
(in particular `last_seq` does not advance). -/
theorem C3_in_sequence_applies (b : Book) (seq : Int) (side : Side) (price : Nat)
    (delta : Int) (h : b.last_seq < 0 ∨ seq = b.last_seq + 1) :
    (price ≤ 100 →
      b.apply_delta seq side price delta =
        (true, match side with
          | .Yes => { b with
              yes_bids := listSet b.yes_bids price (max (listGet b.yes_bids price + delta) 0)
              last_seq := seq }
          | .No => { b with
              no_bids := listSet b.no_bids price (max (listGet b.no_bids price + delta) 0)
              last_seq := seq })) ∧
    (100 < price → b.apply_delta seq side price delta = (true, b)) := by
  have hguard : ¬(0 ≤ b.last_seq ∧ seq ≠ b.last_seq + 1) := by
    rcases h with h | h
    · intro hc; omega
    · intro hc; exact hc.2 h
  constructor
  · intro hle
    unfold Book.apply_delta
    rw [if_neg hguard, if_neg (by omega)]
    cases side <;> rfl
  · intro hgt
    unfold Book.apply_delta
    rw [if_neg hguard, if_pos hgt]

/-- C3 witness: on the uninitialized default book, a delta of +5 at
price 40 on `Yes` is applied and `last_seq` becomes 0; at price 101 the
book is unchanged. -/
theorem C3_in_sequence_applies_witness :
    Book.default.apply_delta 0 .Yes 40 5 =
      (true, { Book.default with
        yes_bids := listSet Book.default.yes_bids 40
          (max (listGet Book.default.yes_bids 40 + 5) 0)
        last_seq := 0 }) ∧
    Book.default.apply_delta 0 .Yes 101 5 = (true, Book.default) := by
  constructor
  · exact (C3_in_sequence_applies Book.default 0 .Yes 40 5 (Or.inl (by decide))).1
      (by omega)
  · exact (C3_in_sequence_applies Book.default 0 .Yes 101 5 (Or.inl (by decide))).2
      (by omega)

/-!
## C5 — status transitions
-/

/-- C5 counterexample: `set_status_by_client` overwrites the status with
no transition guard, so a terminal `Filled` record is resurrected to
`Resting` — the claimed transition monotonicity does not hold. -/
theorem C5_counterexample :
    (lookupClient (ordersC5.set_status_by_client 1 .Resting).by_client 1).map
      OrderRec.status = some OrderStatus.Resting := by
  decide

/-- C5 amended: status updates are unguarded — `set_status_by_client`
stores exactly the given status whenever the client id is known
(regardless of the current status, terminal or not), and
`set_status_by_order` is the same operation reached through the
exchange-id index; no transition relation is enforced. -/
theorem C5_set_status_overwrites (o : Orders) (cid : Nat) (st : OrderStatus)
    (rec : OrderRec) (h : lookupClient o.by_client cid = some rec) :
    lookupClient (o.set_status_by_client cid st).by_client cid =
      some { rec with status := st } ∧
    ∀ oid, lookupOrder o.by_order oid = some cid →
      o.set_status_by_order oid st = o.set_status_by_client cid st := by
  constructor
  · unfold Orders.set_status_by_client
    rw [h]
    rw [lookupClient_updateClient, h]
    rfl
  · intro oid hoid
    unfold Orders.set_status_by_order
    rw [hoid]

/-- C5 witness: overwriting the concrete `Filled` record with `Canceled`
stores `Canceled`. -/
theorem C5_set_status_overwrites_witness :
    (lookupClient (ordersC5.set_status_by_client 1 .Canceled).by_client 1).map
      OrderRec.status = some OrderStatus.Canceled := by
  have h := (C5_set_status_overwrites ordersC5 1 .Canceled
    { recC1 with status := .Filled, filled_qty := 5 } (by decide)).1
  rw [h]
  decide

/-!
## C7 — simulate_buy accounting
-/

/-- C7: `simulate_buy(side, p, q)` yields a position whose cost on that
side grew by exactly `p * q * 100` cent-cents and whose quantity grew by
exactly `q`, with the other side's cost and quantity unchanged; the
receiver is not modified (the embedding is pure and the source clones
the receiver before applying the fill). -/
theorem C7_simulate_buy_accounting (p : Position) (side : Side) (price : Nat) (q : Int) :
    (p.simulate_buy side price q).cost_on side =
      p.cost_on side + (price : Int) * q * 100 ∧
    (p.simulate_buy side price q).qty_on side = p.qty_on side + q ∧
    (p.simulate_buy side price q).cost_on side.other = p.cost_on side.other ∧
    (p.simulate_buy side price q).qty_on side.other = p.qty_on side.other := by
  cases side <;>
    simp [Position.simulate_buy, Position.apply_fill, Position.cost_on, Position.qty_on,
      Side.other, CC_PER_CENT] <;>
    ring

/-!
## C8 — implied-ask identity
-/

/-- C8: whenever the opposite side has a best bid `bb` (which is always
at most 100), the implied ask is exactly `100 - bb` — the saturating
subtraction in the source never actually saturates — and when the
opposite side has no positive-quantity level the implied ask is `none`. -/
theorem C8_implied_ask_identity (b : Book) :
    (∀ bb, b.best_bid .No = some bb → bb ≤ 100 ∧ b.implied_ask .Yes = some (100 - bb)) ∧
    (∀ bb, b.best_bid .Yes = some bb → bb ≤ 100 ∧ b.implied_ask .No = some (100 - bb)) ∧
    ((∀ p, p ≤ 100 → listGet b.no_bids p ≤ 0) → b.implied_ask .Yes = none) ∧
    ((∀ p, p ≤ 100 → listGet b.yes_bids p ≤ 0) → b.implied_ask .No = none) := by
  refine ⟨?_, ?_, ?_, ?_⟩
  · intro bb h
    refine ⟨bestBidFrom_le b.no_bids 100 bb h, ?_⟩
    unfold Book.implied_ask
    rw [h]
    rfl
  · intro bb h
    refine ⟨bestBidFrom_le b.yes_bids 100 bb h, ?_⟩
    unfold Book.implied_ask
    rw [h]
    rfl
  · intro h
    unfold Book.implied_ask Book.best_bid
    rw [(bestBidFrom_eq_none b.no_bids 100).mpr h]
    rfl
  · intro h
    unfold Book.implied_ask Book.best_bid
    rw [(bestBidFrom_eq_none b.yes_bids 100).mpr h]
    rfl

/-- C8 witness: on the concrete book with best bids 40 (`Yes`) and 55
(`No`), the implied asks are 45 and 60; on the empty default book both
implied asks are `none`. -/
theorem C8_implied_ask_identity_witness :
    bookYN.implied_ask .Yes = some 45 ∧
    bookYN.implied_ask .No = some 60 ∧
    Book.default.implied_ask .Yes = none ∧
    Book.default.implied_ask .No = none := by
  refine ⟨?_, ?_, ?_, ?_⟩
  · exact ((C8_implied_ask_identity bookYN).1 55 (by decide)).2
  · exact ((C8_implied_ask_identity bookYN).2.1 40 (by decide)).2
  · exact (C8_implied_ask_identity Book.default).2.2.1 (by decide)
  · exact (C8_implied_ask_identity Book.default).2.2.2 (by decide)

/-!
## C9 — mode boundaries
-/

/-- C9: with an effective window length of 900 seconds, `balance_s = 300`
and `accumulate_s = 300`, the mode is `Hedge` at 301 seconds remaining,
`Balance` at 300, `Accumulate` at 601 and `Hedge` at 600. -/
theorem C9_mode_boundaries (cfg : Config) (hb : cfg.balance_s = 300)
    (ha : cfg.accumulate_s = 300) :
    pick_mode cfg 301 900 = Mode.Hedge ∧
    pick_mode cfg 300 900 = Mode.Balance ∧
    pick_mode cfg 601 900 = Mode.Accumulate ∧
    pick_mode cfg 600 900 = Mode.Hedge := by
  unfold pick_mode
  rw [hb, ha]
  norm_num

/-- C9 witness: the boundary values evaluated on the concrete
configuration `cfg0`. -/
theorem C9_mode_boundaries_witness :
    pick_mode cfg0 301 900 = Mode.Hedge ∧
    pick_mode cfg0 300 900 = Mode.Balance ∧
    pick_mode cfg0 601 900 = Mode.Accumulate ∧
    pick_mode cfg0 600 900 = Mode.Hedge :=
  C9_mode_boundaries cfg0 (by decide) (by decide)

/-!
## C10 — paper-fill quantity bound
-/

/-- Replacing a resting hint leaves the order table untouched. -/
theorem set_resting_hint_orders (m : Market) (s : Side) (hv : Option RestingHint) :
    (m.set_resting_hint s hv).orders = m.orders := by
  cases s <;> rfl

/-- Replacing a resting hint leaves the position untouched. -/
theorem set_resting_hint_pos (m : Market) (s : Side) (hv : Option RestingHint) :
    (m.set_resting_hint s hv).pos = m.pos := by
  cases s <;> rfl

/-- Characterization of the paper-fill tail at a known record: when the
computed fill is positive, the record accumulates exactly that fill and
the position buys it at the posted price; when it is zero, the tail
returns its input market unchanged. -/
theorem paper_fill_tail_spec (m1 : Market) (mkr : Side) (cid pp : Nat) (rem : Int)
    (rec : OrderRec)
    (hrec : lookupClient m1.orders.by_client cid = some rec)
    (hq64 : rec.qty < 2 ^ 64) (hfl : rec.filled_qty ≤ rec.qty) :
    (0 < min (rec.qty - rec.filled_qty) rem.toNat →
      lookupClient (paper_fill_tail m1 mkr cid pp rem).orders.by_client cid =
        some { rec with
          filled_qty := rec.filled_qty + min (rec.qty - rec.filled_qty) rem.toNat
          status := if rec.qty ≤ rec.filled_qty + min (rec.qty - rec.filled_qty) rem.toNat
            then OrderStatus.Filled else rec.status } ∧
      (paper_fill_tail m1 mkr cid pp rem).pos =
        m1.pos.apply_fill mkr pp (↑(min (rec.qty - rec.filled_qty) rem.toNat))) ∧
    (min (rec.qty - rec.filled_qty) rem.toNat = 0 →
      paper_fill_tail m1 mkr cid pp rem = m1) := by
  constructor
  · intro hpos
    have hrem : ¬ rem ≤ 0 := by
      intro hle
      have : rem.toNat = 0 := Int.toNat_of_nonpos hle
      omega
    have hordrem : ¬ rec.qty - rec.filled_qty = 0 := by omega
    have hfq : ¬ min (rec.qty - rec.filled_qty) rem.toNat = 0 := by omega
    unfold paper_fill_tail
    rw [if_neg hrem, hrec]
    dsimp only
    rw [if_neg hordrem, if_neg hfq]
    have hstep := on_fill_by_client_found m1.orders cid
      (min (rec.qty - rec.filled_qty) rem.toNat) rec hrec
    have hsadd : u64SatAdd rec.filled_qty (min (rec.qty - rec.filled_qty) rem.toNat)
        = rec.filled_qty + min (rec.qty - rec.filled_qty) rem.toNat := by
      unfold u64SatAdd
      omega
    rw [hsadd] at hstep
    constructor
    · split
      · rw [set_resting_hint_orders]
        exact hstep.2
      · exact hstep.2
    · split
      · rw [set_resting_hint_pos]
      · rfl
  · intro hz
    unfold paper_fill_tail
    by_cases hrem : rem ≤ 0
    · rw [if_pos hrem]
    · rw [if_neg hrem, hrec]
      dsimp only
      have hord : rec.qty - rec.filled_qty = 0 := by omega
      rw [if_pos hord]

/-- C10: on the paper simulator's trade-print path the fill applied to
the hinted order and to the position is exactly
`paper_fill_applied` — the minimum of the order's remaining quantity and
the print count left after consuming queue-ahead; consequently the
cumulative fill never exceeds the requested quantity, and when the
order's remaining quantity is zero (or nothing is left after the queue)
no fill is applied at all. -/
theorem C10_paper_fill_min (m : Market) (taker_side : Side) (yes_price no_price : Nat)
    (count : Int) (h : RestingHint) (rec : OrderRec)
    (hh : m.resting_hint taker_side.other = some h)
    (hoid : h.order_id.isSome)
    (hpx : (match taker_side.other with
            | Side.Yes => yes_price
            | Side.No => no_price) ≤ h.price_cents)
    (hrec : lookupClient m.orders.by_client h.client_order_id = some rec)
    (hq64 : rec.qty < 2 ^ 64)
    (hfl : rec.filled_qty ≤ rec.qty) :
    (0 < paper_fill_applied taker_side yes_price no_price count h rec →
      lookupClient
          (paper_on_trade_fill m taker_side yes_price no_price count).orders.by_client
          h.client_order_id =
        some { rec with
          filled_qty := rec.filled_qty +
            paper_fill_applied taker_side yes_price no_price count h rec
          status := if rec.qty ≤ rec.filled_qty +
              paper_fill_applied taker_side yes_price no_price count h rec
            then OrderStatus.Filled else rec.status } ∧
      (paper_on_trade_fill m taker_side yes_price no_price count).pos =
        m.pos.apply_fill taker_side.other h.price_cents
          (paper_fill_applied taker_side yes_price no_price count h rec : Int)) ∧
    (paper_fill_applied taker_side yes_price no_price count h rec = 0 →
      (paper_on_trade_fill m taker_side yes_price no_price count).orders = m.orders ∧
      (paper_on_trade_fill m taker_side yes_price no_price count).pos = m.pos) ∧
    rec.filled_qty + paper_fill_applied taker_side yes_price no_price count h rec ≤
      rec.qty ∧
    (rec.qty ≤ rec.filled_qty →
      paper_fill_applied taker_side yes_price no_price count h rec = 0) := by
  rcases Option.isSome_iff_exists.mp hoid with ⟨oid, hoid2⟩
  have hnlt : ¬ h.price_cents < (match taker_side.other with
      | Side.Yes => yes_price
      | Side.No => no_price) := Nat.not_lt.mpr hpx
  by_cases hzero : (max count 0).toNat = 0
  · have hm2 : paper_on_trade_fill m taker_side yes_price no_price count = m := by
      unfold paper_on_trade_fill
      rw [if_pos hzero]
    have happ : paper_fill_applied taker_side yes_price no_price count h rec = 0 := by
      unfold paper_fill_applied
      simp only [hzero]
      by_cases hC : (match taker_side.other with
          | Side.Yes => yes_price
          | Side.No => no_price) < h.price_cents <;>
        (simp [hC]; try omega)
    rw [hm2, happ]
    exact ⟨fun hc => absurd hc (by omega), fun _ => ⟨rfl, rfl⟩, by omega, fun _ => rfl⟩
  · have happ_eq : paper_fill_applied taker_side yes_price no_price count h rec =
        min (rec.qty - rec.filled_qty)
          ((((max count 0).toNat : Nat) : Int) -
            (if 0 < (if (match taker_side.other with
                | Side.Yes => yes_price
                | Side.No => no_price) < h.price_cents then 0 else h.queue_ahead) then
              min (if (match taker_side.other with
                  | Side.Yes => yes_price
                  | Side.No => no_price) < h.price_cents then 0 else h.queue_ahead)
                (((max count 0).toNat : Nat) : Int)
            else 0)).toNat := rfl
    have hq1 : (if (match taker_side.other with
          | Side.Yes => yes_price
          | Side.No => no_price) < h.price_cents then
          { h with queue_ahead := 0 } else h)
        = { h with queue_ahead := if (match taker_side.other with
            | Side.Yes => yes_price
            | Side.No => no_price) < h.price_cents then 0 else h.queue_ahead } := by
      split <;> rfl
    have hhead : paper_on_trade_fill m taker_side yes_price no_price count =
        paper_fill_tail
          (m.set_resting_hint taker_side.other (some { h with queue_ahead :=
            (if (match taker_side.other with
                | Side.Yes => yes_price
                | Side.No => no_price) < h.price_cents then 0 else h.queue_ahead) -
            (if 0 < (if (match taker_side.other with
                | Side.Yes => yes_price
                | Side.No => no_price) < h.price_cents then 0 else h.queue_ahead) then
              min (if (match taker_side.other with
                  | Side.Yes => yes_price
                  | Side.No => no_price) < h.price_cents then 0 else h.queue_ahead)
                (((max count 0).toNat : Nat) : Int)
            else 0) }))
          taker_side.other h.client_order_id h.price_cents
          ((((max count 0).toNat : Nat) : Int) -
            (if 0 < (if (match taker_side.other with
                | Side.Yes => yes_price
                | Side.No => no_price) < h.price_cents then 0 else h.queue_ahead) then
              min (if (match taker_side.other with
                  | Side.Yes => yes_price
                  | Side.No => no_price) < h.price_cents then 0 else h.queue_ahead)
                (((max count 0).toNat : Nat) : Int)
            else 0)) := by
      unfold paper_on_trade_fill
      rw [if_neg hzero]
      dsimp only
      rw [hh]
      dsimp only
      rw [if_neg (show ¬ h.order_id = none by simp [hoid2]), if_neg hnlt, hq1]
    rw [happ_eq, hhead]
    have hrec1 : lookupClient (m.set_resting_hint taker_side.other (some { h with
        queue_ahead :=
          (if (match taker_side.other with
              | Side.Yes => yes_price
              | Side.No => no_price) < h.price_cents then 0 else h.queue_ahead) -
          (if 0 < (if (match taker_side.other with
              | Side.Yes => yes_price
              | Side.No => no_price) < h.price_cents then 0 else h.queue_ahead) then
            min (if (match taker_side.other with
                | Side.Yes => yes_price
                | Side.No => no_price) < h.price_cents then 0 else h.queue_ahead)
              (((max count 0).toNat : Nat) : Int)
          else 0) })).orders.by_client h.client_order_id = some rec := by
      rw [set_resting_hint_orders]
      exact hrec
    have hspec := paper_fill_tail_spec _ taker_side.other h.client_order_id h.price_cents
      ((((max count 0).toNat : Nat) : Int) -
        (if 0 < (if (match taker_side.other with
            | Side.Yes => yes_price
            | Side.No => no_price) < h.price_cents then 0 else h.queue_ahead) then
          min (if (match taker_side.other with
              | Side.Yes => yes_price
              | Side.No => no_price) < h.price_cents then 0 else h.queue_ahead)
            (((max count 0).toNat : Nat) : Int)
        else 0)) rec hrec1 hq64 hfl
    refine ⟨?_, ?_, by omega, by omega⟩
    · intro hpos
      rcases hspec.1 hpos with ⟨hl, hp⟩
      refine ⟨hl, ?_⟩
      rw [hp, set_resting_hint_pos]
    · intro hz
      rw [hspec.2 hz]
      exact ⟨set_resting_hint_orders _ _ _, set_resting_hint_pos _ _ _⟩

/-- C10 witness: on the concrete market `mP` (resting 5-lot filled 1,
one lot queued ahead, print of 3 at the posted price) the order
accumulates exactly `min(5-1, 3-1) = 2` more lots; on `mP0` (already
fully filled) the trade print applies no fill. -/
theorem C10_paper_fill_min_witness :
    lookupClient (paper_on_trade_fill mP .No 45 55 3).orders.by_client
      hintP.client_order_id = some { recP with filled_qty := 3 } ∧
    (paper_on_trade_fill mP0 .No 45 55 3).orders = mP0.orders := by
  constructor
  · have h1 := ((C10_paper_fill_min mP .No 45 55 3 hintP recP (by decide) (by decide)
      (by decide) (by decide) (by decide) (by decide)).1 (by decide)).1
    rw [h1]
    decide
  · have h2 := (C10_paper_fill_min mP0 .No 45 55 3 hintP { recP with filled_qty := 5 }
      (by decide) (by decide) (by decide) (by decide) (by decide) (by decide)).2.1
      (by decide)
    exact h2.1

/-!
## Shape lemmas for the decision engine (C4, C6)
-/

/-- `cancel_stale_side` only ever emits a cancel command. -/
theorem cancel_stale_side_shape (cfg : Config) (ticker : String) (m : Market) (now : Nat)
    (side : Side) (c : ExecCommand) (m2 : Market)
    (hs : cancel_stale_side cfg ticker m now side = some (c, m2)) :
    ∃ oid, c = ExecCommand.CancelOrder ticker oid := by
  unfold cancel_stale_side at hs
  dsimp only at hs
  repeat' split at hs
  all_goals try cases hs
  all_goals exact ⟨_, rfl⟩

/-- `cancel_stale_if_needed` only ever emits a cancel command. -/
theorem cancel_stale_if_needed_some (cfg : Config) (ticker : String) (m : Market)
    (now : Nat) (c : ExecCommand)
    (hs : (cancel_stale_if_needed cfg ticker m now).1 = some c) :
    ∃ oid, c = ExecCommand.CancelOrder ticker oid := by
  unfold cancel_stale_if_needed at hs
  split at hs
  · next c1 m1 heq =>
      simp only [Option.some.injEq] at hs
      subst hs
      exact cancel_stale_side_shape cfg ticker m now .Yes c1 m1 heq
  · split at hs
    · next c1 m1 heq =>
        simp only [Option.some.injEq] at hs
        subst hs
        exact cancel_stale_side_shape cfg ticker m now .No c1 m1 heq
    · cases hs

/-- When `cancel_stale_if_needed` emits nothing it leaves the market
unchanged. -/
theorem cancel_stale_if_needed_none (cfg : Config) (ticker : String) (m : Market)
    (now : Nat)
    (hs : (cancel_stale_if_needed cfg ticker m now).1 = none) :
    (cancel_stale_if_needed cfg ticker m now).2 = m := by
  unfold cancel_stale_if_needed at hs ⊢
  rcases h1 : cancel_stale_side cfg ticker m now .Yes with _ | ⟨c1, m1⟩
  · rcases h2 : cancel_stale_side cfg ticker m now .No with _ | ⟨c2, m2⟩
    · rfl
    · rw [h1, h2] at hs
      cases hs
  · rw [h1] at hs
    cases hs

/-- Every command `maybe_opportunistic_taker` emits is a 1-lot IOC
`PlaceOrder` carrying its fresh client id. -/
theorem maybe_opportunistic_taker_some (cfg : Config) (tpc : Int) (ticker : String)
    (m : Market) (now : Nat) (t_rem : Int) (d : Side) (fresh : Nat) (c : ExecCommand)
    (hs : (maybe_opportunistic_taker cfg tpc ticker m now t_rem d fresh).1 = some c) :
    ∃ s a, c = ExecCommand.PlaceOrder ticker s a 1 .Ioc false fresh := by
  unfold maybe_opportunistic_taker at hs
  dsimp only at hs
  split at hs
  · cases hs
  · next s a heq =>
      simp only [Option.some.injEq] at hs
      exact ⟨s, a, hs.symm⟩

/-- When `maybe_opportunistic_taker` emits nothing it leaves the market
unchanged. -/
theorem maybe_opportunistic_taker_none (cfg : Config) (tpc : Int) (ticker : String)
    (m : Market) (now : Nat) (t_rem : Int) (d : Side) (fresh : Nat)
    (hs : (maybe_opportunistic_taker cfg tpc ticker m now t_rem d fresh).1 = none) :
    (maybe_opportunistic_taker cfg tpc ticker m now t_rem d fresh).2 = m := by
  unfold maybe_opportunistic_taker at hs ⊢
  dsimp only at hs ⊢
  split at hs
  · rfl
  · simp at hs

/-- `place_or_manage_resting` emits either a cancel, or a fresh 1-lot
post-only GTC quote — the latter only when the side has no resting
hint. -/
theorem place_or_manage_some (cfg : Config) (ticker : String) (m : Market) (now : Nat)
    (side : Side) (p fresh : Nat) (c : ExecCommand)
    (hs : (place_or_manage_resting cfg ticker m now side p fresh).1 = some c) :
    (∃ oid, c = ExecCommand.CancelOrder ticker oid) ∨
    (c = ExecCommand.PlaceOrder ticker side p 1 .Gtc true fresh ∧
      m.resting_hint side = none) := by
  unfold place_or_manage_resting at hs
  rcases hm : m.resting_hint side with _ | ex
  · rw [hm] at hs
    dsimp only at hs
    simp only [Option.some.injEq] at hs
    exact Or.inr ⟨hs.symm, rfl⟩
  · rw [hm] at hs
    dsimp only at hs
    left
    repeat' split at hs
    all_goals try cases hs
    all_goals exact ⟨_, rfl⟩

/-- The other-side cancel block of `maybe_maker_quote` only ever emits a
cancel. -/
theorem maker_cancel_other_shape (cfg : Config) (ticker : String) (m : Market)
    (now : Nat) (other : Side) (c : ExecCommand) (m2 : Market)
    (hs : maker_cancel_other cfg ticker m now other = some (c, m2)) :
    ∃ oid, c = ExecCommand.CancelOrder ticker oid := by
  unfold maker_cancel_other at hs
  dsimp only at hs
  repeat' split at hs
  all_goals try cases hs
  all_goals exact ⟨_, rfl⟩

/-- Every command `maybe_maker_quote` emits is either a cancel, or a
1-lot post-only GTC `PlaceOrder` on the desired side — the latter only
when that side has no resting hint. -/
theorem maybe_maker_quote_some (cfg : Config) (tpc spc : Int) (ticker : String)
    (m : Market) (now : Nat) (t_rem : Int) (d : Side) (fresh : Nat) (c : ExecCommand)
    (hs : (maybe_maker_quote cfg tpc spc ticker m now t_rem d fresh).1 = some c) :
    (∃ oid, c = ExecCommand.CancelOrder ticker oid) ∨
    ∃ p, c = ExecCommand.PlaceOrder ticker d p 1 .Gtc true fresh ∧
      m.resting_hint d = none := by
  unfold maybe_maker_quote at hs
  rcases hmc : maker_cancel_other cfg ticker m now d.other with _ | ⟨c1, m1⟩
  · rw [hmc] at hs
    dsimp only at hs
    rcases htop : top_maker_price cfg m d with _ | top
    · rw [htop] at hs
      cases hs
    · rw [htop] at hs
      dsimp only at hs
      repeat' split at hs
      all_goals try cases hs
      all_goals
        rcases place_or_manage_some cfg ticker m now d _ fresh c hs with ⟨oid, rfl⟩ | ⟨h1, h2⟩
      all_goals first
        | exact Or.inl ⟨oid, rfl⟩
        | exact Or.inr ⟨_, h1, h2⟩
  · rw [hmc] at hs
    dsimp only at hs
    simp only [Option.some.injEq] at hs
    subst hs
    exact Or.inl (maker_cancel_other_shape cfg ticker m now d.other c1 m1 hmc)

/-- Preparation (window reset, mode update, side selection) does not
touch the resting hints. -/
theorem decide_prep_hint (cfg : Config) (tpc : Int) (m : Market) (now_s : Int)
    (sd : Side) :
    (decide_prep cfg tpc m now_s).1.resting_hint sd = m.resting_hint sd := by
  unfold decide_prep
  cases sd <;> (dsimp only [Market.resting_hint]; split <;> rfl)

/-- `decide`-level shape: every `PlaceOrder` the engine emits is for
exactly one lot, and every GTC (maker) `PlaceOrder` is emitted only when
the placed side had no resting hint at entry. -/
theorem decide_place_shape (cfg : Config) (tpc spc : Int) (ticker : String) (m : Market)
    (now_s : Int) (now : Nat) (fT fM : Nat) (t : String) (s : Side) (pc q : Nat)
    (tif : Tif) (po : Bool) (cid : Nat)
    (hs : (decide cfg tpc spc ticker m now_s now fT fM).1 =
      some (ExecCommand.PlaceOrder t s pc q tif po cid)) :
    q = 1 ∧ (tif = Tif.Gtc → m.resting_hint s = none) := by
  have hbody : (decide_body cfg tpc spc ticker m now_s now fT fM).1 =
      some (ExecCommand.PlaceOrder t s pc q tif po cid) → q = 1 ∧
      (tif = Tif.Gtc → m.resting_hint s = none) := by
    intro hb
    unfold decide_body at hb
    dsimp only at hb
    split at hb
    · next c1 m4 heq =>
        simp only [Option.some.injEq] at hb
        rcases cancel_stale_if_needed_some cfg ticker _ now c1
          (by rw [heq]) with ⟨oid, hc⟩
        rw [hb] at hc
        cases hc
    · next m4 heq1 =>
        have hm4 : m4 = (decide_prep cfg tpc m now_s).1 := by
          have h0 : (cancel_stale_if_needed cfg ticker (decide_prep cfg tpc m now_s).1
              now).1 = none := by rw [heq1]
          have := cancel_stale_if_needed_none cfg ticker _ now h0
          rw [heq1] at this
          exact this
        split at hb
        · next c2 m5 heq2 =>
            simp only [Option.some.injEq] at hb
            rcases maybe_opportunistic_taker_some cfg tpc ticker m4 now _ _ fT c2
              (by rw [heq2]) with ⟨ts, ta, hc⟩
            rw [hb] at hc
            injection hc with e1 e2 e3 e4 e5 e6 e7
            refine ⟨e4, ?_⟩
            intro hg
            rw [hg] at e5
            cases e5
        · next m5 heq2 =>
            have hm5 : m5 = m4 := by
              have h0 : (maybe_opportunistic_taker cfg tpc ticker m4 now
                  (decide_prep cfg tpc m now_s).2.2 (decide_prep cfg tpc m now_s).2.1
                  fT).1 = none := by rw [heq2]
              have := maybe_opportunistic_taker_none cfg tpc ticker m4 now _ _ fT h0
              rw [heq2] at this
              exact this
            rcases maybe_maker_quote_some cfg tpc spc ticker m5 now _ _ fM _ hb with
              ⟨oid, hc⟩ | ⟨p, h1, h2⟩
            · cases hc
            · injection h1 with e1 e2 e3 e4 e5 e6 e7
              refine ⟨e4, ?_⟩
              intro _
              rw [e2, ← decide_prep_hint cfg tpc m now_s _, ← hm4, ← hm5]
              exact h2
  unfold decide at hs
  split at hs
  · split at hs
    · cases hs
    · exact hbody hs
  · exact hbody hs

/-!
## C4 — order quantity
-/

/-- C4 counterexample: on the flat market `mW` late in the window
(`t_rem = 100`, mode `Balance`) the engine emits a 1-lot IOC buy even
though the yes/no gap `|yes − no|` is 0 — the emitted quantity exceeds
the remaining gap, and does not scale with anything: the source places
`qty: 1` at every emission site, with no gap, urgency or Balance-boost
sizing. -/
theorem C4_counterexample :
    (decide cfg0 9825 9900 "T" mW 900 500000 11 12).1 =
      some (.PlaceOrder "T" .Yes 45 1 .Ioc false 11) ∧
    mW.pos.yes_qty = 0 ∧ mW.pos.no_qty = 0 := by
  decide

/-- C4 amended: every `PlaceOrder` the decision engine emits — taker or
maker, in any mode, at any gap — has quantity exactly 1; there is no
gap/urgency/Balance-mode sizing, and the quantity can exceed the
remaining yes/no gap (when the gap is 0). -/
theorem C4_place_qty_one (cfg : Config) (tpc spc : Int) (ticker : String) (m : Market)
    (now_s : Int) (now : Nat) (fT fM : Nat) (t : String) (s : Side) (pc q : Nat)
    (tif : Tif) (po : Bool) (cid : Nat)
    (hs : (decide cfg tpc spc ticker m now_s now fT fM).1 =
      some (ExecCommand.PlaceOrder t s pc q tif po cid)) :
    q = 1 :=
  (decide_place_shape cfg tpc spc ticker m now_s now fT fM t s pc q tif po cid hs).1

/-- C4 witness: a concrete invocation that emits a maker quote, and its
quantity obtained through the theorem. -/
theorem C4_place_qty_one_witness :
    (decide cfg0 9825 9900 "T" mW 100 500000 11 12).1 =
      some (.PlaceOrder "T" .Yes 41 1 .Gtc true 12) ∧ (1 : Nat) = 1 :=
  ⟨by decide,
    C4_place_qty_one cfg0 9825 9900 "T" mW 100 500000 11 12 "T" .Yes 41 1 .Gtc true 12
      (by decide)⟩

/-!
## C6 — single action per tick, duplicate-quote protection
-/

/-- C6 counterexample: the market `m6` carries a live (status `Resting`)
hint on `Yes` at price 45, yet `decide` emits a `PlaceOrder` for `Yes`
at 45 — the opportunistic-taker (IOC) path never consults resting hints,
so the claim that no `PlaceOrder` is emitted for a side with a live
resting hint at the same price is false. -/
theorem C6_counterexample :
    (decide cfg0 9825 9900 "T" m6 900 500000 11 12).1 =
      some (.PlaceOrder "T" .Yes 45 1 .Ioc false 11) ∧
    m6.resting_yes = some hint7 ∧
    hint7.price_cents = 45 ∧
    (lookupClient m6.orders.by_client hint7.client_order_id).map OrderRec.status =
      some OrderStatus.Resting := by
  decide

/-- C6 amended: a single invocation of `decide` emits at most one
command, hence at most one `PlaceOrder`; and every GTC (maker)
`PlaceOrder` is emitted only for a side that carries no resting hint at
all.  (IOC taker `PlaceOrder`s, by contrast, ignore resting hints — see
the counterexample.) -/
theorem C6_at_most_one_place (cfg : Config) (tpc spc : Int) (ticker : String)
    (m : Market) (now_s : Int) (now : Nat) (fT fM : Nat) :
    countPlace (decide cfg tpc spc ticker m now_s now fT fM).1 ≤ 1 ∧
    ∀ t s pc q po cid,
      (decide cfg tpc spc ticker m now_s now fT fM).1 =
        some (ExecCommand.PlaceOrder t s pc q .Gtc po cid) →
      m.resting_hint s = none := by
  constructor
  · cases hv : (decide cfg tpc spc ticker m now_s now fT fM).1 with
    | none => simp [countPlace]
    | some c => cases c <;> simp [countPlace]
  · intro t s pc q po cid hs
    exact (decide_place_shape cfg tpc spc ticker m now_s now fT fM t s pc q .Gtc po cid
      hs).2 rfl

/-- C6 witness: the maker-quote invocation on `mW` (no hints anywhere)
emits a GTC `PlaceOrder` on `Yes`, and the theorem certifies the `Yes`
hint was empty. -/
theorem C6_at_most_one_place_witness :
    mW.resting_hint .Yes = none :=
  (C6_at_most_one_place cfg0 9825 9900 "T" mW 100 500000 11 12).2 "T" .Yes 41 1 true 12
    (by decide)

end ArbBot
